import Mathlib

/-!
Shallow embedding of `pacs_nm_retriever.py` (class `PACSNMRetriever` and the
date-resolution logic of `main`), together with theorems settling the frozen
claims about the retriever.  Remote-archive behaviour (association outcomes,
C-FIND responses, C-MOVE statuses, inbound C-STORE objects, `getscu` process
results) is modelled by explicit oracle values; the functions below are direct
translations of the Python control flow over those oracles.
-/

namespace Risca

/-! ## Python helpers -/

/-- Truthiness of an optional Python string: `None` and `''` are falsy. -/
def pyTruthyStr : Option String → Bool
  | none => false
  | some s => if s = "" then false else true

/-! ## Identifier sanitization and the store callback (`handle_store`) -/

/-- Characters kept by the sanitizer in `handle_store`:
`c.isalnum() or c in ('-', '_')`.  (Python's `isalnum` is Unicode-aware; the
identifiers in play are ASCII, which `Char.isAlphanum` covers.) -/
def keepChar (c : Char) : Bool := c.isAlphanum || c = '-' || c = '_'

/-- The sanitization applied to the patient-ID segment in `handle_store`:
`"".join(c for c in patient_id if c.isalnum() or c in ('-', '_'))`. -/
def sanitize (s : String) : String := String.mk (s.data.filter keepChar)

/-- An inbound DICOM object as seen by `handle_store`; each identifier is
optional, `getattr(ds, ..., 'UNKNOWN')` supplying the default. -/
structure DicomObject where
  patientID : Option String
  studyInstanceUID : Option String
  seriesInstanceUID : Option String
  sopInstanceUID : Option String
deriving DecidableEq

/-- The destination path segments computed by `handle_store`:
`output_dir / patient_id / study_uid / series_uid / (sop_uid + ".dcm")`. -/
structure DestPath where
  patientSeg : String
  studySeg : String
  seriesSeg : String
  fileName : String
deriving DecidableEq

/-- Path derivation in `handle_store` (lines 156-175): the patient-ID segment
is sanitized; the study, series and SOP-instance identifiers are used as-is. -/
def destPath (ds : DicomObject) : DestPath :=
  { patientSeg := sanitize (ds.patientID.getD "UNKNOWN")
    studySeg := ds.studyInstanceUID.getD "UNKNOWN"
    seriesSeg := ds.seriesInstanceUID.getD "UNKNOWN"
    fileName := (ds.sopInstanceUID.getD "UNKNOWN") ++ ".dcm" }

/-- Outcome of the local `ds.save_as` call inside `handle_store`. -/
inductive WriteOutcome
  | ok
  | raises
deriving DecidableEq

/-- The mutable state `handle_store` reads: the shared run counter
`self.image_count` and the `self.dry_run` flag. -/
structure StoreState where
  imageCount : Int
  dryRun : Bool
deriving DecidableEq

/-- Result of one `handle_store` invocation: the updated counter, the DIMSE
status returned, and the filesystem writes performed (directory creation plus
file save, as the destination paths touched). -/
structure StoreResult where
  newCount : Int
  status : Nat
  writes : List DestPath
deriving DecidableEq

/-- Translation of `handle_store` (lines 150-184): the counter is incremented
first; in dry-run mode nothing is written and success (0x0000) is returned;
otherwise directories are created and the object saved, a failed save
returning 0xC000 while the counter keeps its increment. -/
def handleStore (st : StoreState) (ds : DicomObject) (w : WriteOutcome) : StoreResult :=
  let p := destPath ds
  let cnt := st.imageCount + 1
  if st.dryRun then
    { newCount := cnt, status := 0x0000, writes := [] }
  else
    match w with
    | .ok => { newCount := cnt, status := 0x0000, writes := [p] }
    | .raises => { newCount := cnt, status := 0xC000, writes := [p] }

/-- Python's substring test `pat in s` on character lists: some tail of `s`
starts with `pat`. -/
def containsSeq (pat : List Char) : List Char → Bool
  | [] => pat.isEmpty
  | c :: rest => pat.isPrefixOf (c :: rest) || containsSeq pat rest

/-! ## Study records and the modality filter (`find_nm_studies`) -/

/-- A study-level C-FIND identifier as used by the retriever: its UID, the
textual form of the optional `ModalitiesInStudy` field, and the optional
`NumberOfStudyRelatedInstances` declared count. -/
structure Study where
  studyInstanceUID : String
  modalitiesInStudy : Option String
  numberOfStudyRelatedInstances : Option Nat
deriving DecidableEq

/-- The modality filter of `find_nm_studies` (lines 246-254): the field must
be present and truthy (`if modalities:`) and its textual form must contain
`'NM'` (`if 'NM' in modalities_str`). -/
def retainStudy (s : Study) : Bool :=
  match s.modalitiesInStudy with
  | none => false
  | some m => if m = "" then false else containsSeq "NM".toList m.toList

/-- Modelled from the spec's wording, for comparison with `retainStudy`:
"retain a study only if its modalities field, interpreted as text, contains
the target modality code as a substring; a study with the field absent is
dropped". -/
def retainStudySpec (s : Study) : Bool :=
  match s.modalitiesInStudy with
  | none => false
  | some m => containsSeq "NM".toList m.toList

/-- Truthiness of the optional `limit` argument (`if limit and ...`):
`None` and `0` are falsy. -/
def limitTruthy : Option Nat → Bool
  | none => false
  | some n => if n = 0 then false else true

/-- The filter loop of `find_nm_studies` (lines 245-260): append each
NM-matching study, breaking once `limit` is truthy and the accumulated count
reaches it. -/
def filterNmAux (limit : Option Nat) (acc : List Study) : List Study → List Study
  | [] => acc
  | s :: rest =>
    if retainStudy s then
      let acc2 := acc ++ [s]
      if limitTruthy limit && decide (limit.getD 0 ≤ acc2.length) then acc2
      else filterNmAux limit acc2 rest
    else filterNmAux limit acc rest

/-- The filter-and-slice step of `find_nm_studies` (lines 245-263):
`nm_studies[:limit] if limit else nm_studies` after the filter loop. -/
def applyStudyFilter (limit : Option Nat) (allStudies : List Study) : List Study :=
  let nm := filterNmAux limit [] allStudies
  if limitTruthy limit then nm.take (limit.getD 0) else nm

theorem filterNmAux_none (xs : List Study) :
    ∀ acc, filterNmAux none acc xs = acc ++ xs.filter retainStudy := by
  induction xs with
  | nil => intro acc; simp [filterNmAux]
  | cons s rest ih =>
    intro acc
    by_cases h : retainStudy s = true
    · simp [filterNmAux, h, limitTruthy, List.filter_cons, ih]
    · simp only [Bool.not_eq_true] at h
      simp [filterNmAux, h, List.filter_cons, ih]

theorem filterNmAux_some (l : Nat) (hl : 0 < l) (xs : List Study) :
    ∀ acc, acc.length < l →
      filterNmAux (some l) acc xs = acc ++ (xs.filter retainStudy).take (l - acc.length) := by
  induction xs with
  | nil => intro acc _; simp [filterNmAux]
  | cons s rest ih =>
    intro acc hacc
    by_cases h : retainStudy s = true
    · by_cases hbrk : l ≤ acc.length + 1
      · have hEq : l - acc.length = 1 := by omega
        have hl0 : l ≠ 0 := by omega
        simp [filterNmAux, h, limitTruthy, List.filter_cons, hbrk, hl0, hEq,
          List.take_succ_cons]
      · have hlt : (acc ++ [s]).length < l := by simp; omega
        have hrec := ih (acc ++ [s]) hlt
        have hEq : l - acc.length = (l - (acc ++ [s]).length) + 1 := by simp; omega
        simp only [filterNmAux, h, if_true]
        have hcond : (limitTruthy (some l) && decide ((some l).getD 0 ≤ (acc ++ [s]).length)) = false := by
          simp [limitTruthy]; omega
        rw [hcond]
        simp only [Bool.false_eq_true, if_false]
        rw [hrec, List.filter_cons, if_pos h, hEq, List.take_succ_cons]
        simp
    · simp only [Bool.not_eq_true] at h
      simp [filterNmAux, h, List.filter_cons, ih acc hacc]

theorem applyStudyFilter_some (l : Nat) (hl : 0 < l) (xs : List Study) :
    applyStudyFilter (some l) xs = (xs.filter retainStudy).take l := by
  have h := filterNmAux_some l hl xs [] (by simpa using hl)
  simp only [applyStudyFilter, h]
  have : limitTruthy (some l) = true := by simp [limitTruthy]; omega
  simp [this, List.take_take]

/-! ## C-FIND calls and association lifecycle (`find_nm_studies`, `find_nm_series`) -/

/-- One `(status, identifier)` pair yielded by `assoc.send_c_find`; either
component may be `None`. -/
structure FindResp (α : Type) where
  status : Option Nat
  identifier : Option α
deriving DecidableEq

/-- The pending-response test of the collection loops:
`if status and status.Status in (0xFF00, 0xFF01)`. -/
def pendingResp {α : Type} (r : FindResp α) : Bool :=
  match r.status with
  | none => false
  | some s => s == 0xFF00 || s == 0xFF01

/-- Oracle for one find call: how the association and the response iteration
behave.  `iterRaises pre` means the iteration yielded the responses in `pre`
and then raised; `ok rs` is the exception-free path. -/
inductive FindBehavior (α : Type)
  | assocRaises : FindBehavior α
  | notEstablished : FindBehavior α
  | sendRaises : FindBehavior α
  | iterRaises : List α → FindBehavior α
  | ok : List α → FindBehavior α
deriving DecidableEq

/-- Whether a `FindBehavior` is the exception-free established path. -/
def FindBehavior.isOk {α : Type} : FindBehavior α → Bool
  | .ok _ => true
  | _ => false

/-- Association facts observable after a find call: whether the association
was established and whether `assoc.release()` ran. -/
structure AssocTrace where
  established : Bool
  released : Bool
deriving DecidableEq

/-- The collection loop of `find_nm_studies` (lines 224-229): append the
identifier of every pending response, in order (no limit check in this
loop). -/
def collectStudies : List (FindResp Study) → List Study
  | [] => []
  | r :: rest =>
    if pendingResp r then
      match r.identifier with
      | some st => st :: collectStudies rest
      | none => collectStudies rest
    else collectStudies rest

/-- Translation of `find_nm_studies` (lines 217-270) over a find oracle: the
`try` block covers associate, send and iteration; any exception is caught and
`[]` returned with no `release()`; only the exception-free established path
releases the association.  The modality filter and study limit are applied
after the collection loop. -/
def findNmStudiesRun (b : FindBehavior (FindResp Study)) (limit : Option Nat) :
    List Study × AssocTrace :=
  match b with
  | .assocRaises => ([], ⟨false, false⟩)
  | .notEstablished => ([], ⟨false, false⟩)
  | .sendRaises => ([], ⟨true, false⟩)
  | .iterRaises _ => ([], ⟨true, false⟩)
  | .ok rs => (applyStudyFilter limit (collectStudies rs), ⟨true, true⟩)

/-- A series-level C-FIND identifier as used by the retriever. -/
structure Series where
  seriesInstanceUID : String
deriving DecidableEq

/-- The collection loop of `find_nm_series` (lines 298-304): append pending
identifiers, breaking once `limit` is truthy and reached. -/
def collectSeriesAux (limit : Option Nat) (acc : List Series) :
    List (FindResp Series) → List Series
  | [] => acc
  | r :: rest =>
    if pendingResp r then
      match r.identifier with
      | some s =>
        let acc2 := acc ++ [s]
        if limitTruthy limit && decide (limit.getD 0 ≤ acc2.length) then acc2
        else collectSeriesAux limit acc2 rest
      | none => collectSeriesAux limit acc rest
    else collectSeriesAux limit acc rest

/-- Translation of `find_nm_series` (lines 276-310): an exception is caught,
logged, and the partially collected list returned; `release()` runs only on
the exception-free established path (a not-established association falls
through to the final `return` with no release). -/
def findNmSeriesRun (b : FindBehavior (FindResp Series)) (limit : Option Nat) :
    List Series × AssocTrace :=
  match b with
  | .assocRaises => ([], ⟨false, false⟩)
  | .notEstablished => ([], ⟨false, false⟩)
  | .sendRaises => ([], ⟨true, false⟩)
  | .iterRaises pre => (collectSeriesAux limit [] pre, ⟨true, false⟩)
  | .ok rs => (collectSeriesAux limit [] rs, ⟨true, true⟩)

/-! ## Date-range resolution (`main` lines 697-709 and `find_nm_studies`
lines 195-201) -/

/-- Gregorian civil date from a day count with day 0 = 1970-01-01
(the proleptic calendar used by Python's `datetime`). -/
def civilFromDays (z : Nat) : Nat × Nat × Nat :=
  let zs := z + 719468
  let era := zs / 146097
  let doe := zs % 146097
  let yoe := (doe - doe / 1460 + doe / 36524 - doe / 146097) / 365
  let y := yoe + era * 400
  let doy := doe - (365 * yoe + yoe / 4 - yoe / 100)
  let mp := (5 * doy + 2) / 153
  let d := doy - (153 * mp + 2) / 5 + 1
  let m := if mp < 10 then mp + 3 else mp - 9
  (if m ≤ 2 then y + 1 else y, m, d)

/-- Zero-pad a number to two digits, as `%m` / `%d` in `strftime`. -/
def pad2 (n : Nat) : String := if n < 10 then "0" ++ toString n else toString n

/-- Zero-pad a number to four digits, as `%Y` in `strftime`. -/
def pad4 (n : Nat) : String :=
  if n < 10 then "000" ++ toString n
  else if n < 100 then "00" ++ toString n
  else if n < 1000 then "0" ++ toString n
  else toString n

/-- `strftime('%Y%m%d')` of the date `z` days after 1970-01-01. -/
def dateToYYYYMMDD (z : Nat) : String :=
  let c := civilFromDays z
  pad4 c.1 ++ pad2 c.2.1 ++ pad2 c.2.2

/-- Date-range resolution, combining `main` (lines 697-709: from/to bounds
with the `19700101`/`29991231` sentinels via `or`, else a truthy
`--study-date` verbatim) with the default branch of `find_nm_studies`
(lines 195-201: the trailing 30-day window ending at `today`, the current
date at call time given as a day count). -/
def resolveDateRange (today : Nat) (single fromD toD : Option String) : String :=
  if pyTruthyStr fromD || pyTruthyStr toD then
    (if pyTruthyStr fromD then fromD.getD "" else "19700101") ++ "-" ++
      (if pyTruthyStr toD then toD.getD "" else "29991231")
  else if pyTruthyStr single then single.getD ""
  else dateToYYYYMMDD (today - 30) ++ "-" ++ dateToYYYYMMDD today

/-! ## Observable effects of a run -/

/-- Externally observable actions of the retriever: the two find calls, the
two retrieval transports (`getscu` subprocess, `send_c_move`), filesystem
writes performed by this process, and the estimated-total log line. -/
inductive Eff
  | findStudiesCall
  | findSeriesCall (studyUID : String)
  | toolInvoke (studyUID seriesUID : String)
  | moveSend (studyUID seriesUID : String)
  | fsWrite (path : String)
  | logEstimate (n : Nat)
deriving DecidableEq

/-- Effects that are filesystem writes. -/
def isFsWrite : Eff → Bool
  | .fsWrite _ => true
  | _ => false

/-- Effects that invoke the retrieval transport (external tool or C-MOVE). -/
def isTransport : Eff → Bool
  | .toolInvoke _ _ => true
  | .moveSend _ _ => true
  | _ => false

/-! ## The extension-repair pass and `getscu` output parsing
(`_retrieve_with_get`, lines 349-439) -/

/-- The canonical image-file suffix `.dcm` as characters. -/
def dcmSuffix : List Char := ['.', 'd', 'c', 'm']

/-- The `filename.endswith('.dcm')` test of the rename pass. -/
def endsWithDcm (f : List Char) : Bool := dcmSuffix.isSuffixOf f

/-- One file's new name under the rename pass (lines 408-416): a name lacking
the suffix has `.dcm` appended, others are left alone. -/
def repairName (f : List Char) : List Char :=
  if endsWithDcm f then f else f ++ dcmSuffix

/-- The extension-repair pass over every file under the output root
(lines 406-416), on the tree's file names. -/
def repairPass (tree : List (List Char)) : List (List Char) := tree.map repairName

/-- Python's `str.split(sep)` on character lists (splitting at every
occurrence of `sep`; `[]` splits to `[[]]`). -/
def splitOnChar (sep : Char) : List Char → List Char → List (List Char)
  | [], cur => [cur.reverse]
  | c :: rest, cur =>
    if c = sep then cur.reverse :: splitOnChar sep rest []
    else splitOnChar sep rest (c :: cur)

/-- ASCII whitespace stripped by Python's `str.strip()`. -/
def isSpaceChar (c : Char) : Bool :=
  c = ' ' || c = '\t' || c = '\n' || c = '\r' || c = '\x0b' || c = '\x0c'

/-- Python's `str.strip()` on character lists. -/
def stripChars (cs : List Char) : List Char :=
  ((cs.dropWhile isSpaceChar).reverse.dropWhile isSpaceChar).reverse

/-- Decimal value of a digit string. -/
def digitsVal (cs : List Char) : Nat :=
  cs.foldl (fun a c => a * 10 + (c.toNat - '0'.toNat)) 0

/-- Whether a (sign-free) body is acceptable to Python's `int()`: nonempty
digit groups separated by single underscores. -/
def pyDigitsOk (cs : List Char) : Bool :=
  (splitOnChar '_' cs []).all fun ch => !ch.isEmpty && ch.all Char.isDigit

/-- Python's `int(str)` on an already character-level string: optional
whitespace, an optional sign, then digits with optional single underscores
between them; anything else raises (modelled as `none`). -/
def pyParseInt (cs0 : List Char) : Option Int :=
  let cs := stripChars cs0
  match cs with
  | '+' :: rest =>
    if pyDigitsOk rest then some ((digitsVal (rest.filter fun c => !(c = '_')) : Nat) : Int)
    else none
  | '-' :: rest =>
    if pyDigitsOk rest then some (-((digitsVal (rest.filter fun c => !(c = '_')) : Nat) : Int))
    else none
  | rest =>
    if pyDigitsOk rest then some ((digitsVal (rest.filter fun c => !(c = '_')) : Nat) : Int)
    else none

/-- The marker scanned for in `getscu` output:
`if 'Completed Suboperations' in line`. -/
def markerText : List Char := "Completed Suboperations".toList

/-- Whether a line contains the completed-suboperations marker. -/
def hasMarker (line : List Char) : Bool := containsSeq markerText line

/-- `int(line.split(':')[1].strip())` for one line, `none` when the line has
no colon or the segment does not parse (both raise in Python and are caught
by the bare `except`). -/
def parseCompletedLine (line : List Char) : Option Int :=
  match (splitOnChar ':' line [])[1]? with
  | none => none
  | some seg => pyParseInt (stripChars seg)

/-- One iteration of the output-scanning loop of `_retrieve_with_get`
(lines 398-403): a marker line that parses overwrites `completed`; one that
does not parse leaves the previous value (`except: pass`). -/
def completedStep (acc : Int) (l : List Char) : Int :=
  if hasMarker l then
    match parseCompletedLine l with
    | some v => v
    | none => acc
  else acc

/-- The output-scanning loop of `_retrieve_with_get` (lines 397-403):
`completed` starts at 0 and is updated line by line. -/
def completedOf (lines : List (List Char)) : Int :=
  lines.foldl completedStep 0

/-- Oracle for one `getscu` invocation.  `ran rc lines written` is a
completed process with exit code `rc`, standard-output `lines`, and the
files the tool wrote under the output root. -/
inductive ToolOutcome
  | notFound
  | timeout
  | runRaises
  | ran (returncode : Int) (stdoutLines : List (List Char)) (written : List (List Char))
deriving DecidableEq

/-- Result of `_retrieve_with_get`: the boolean returned, the run counter
afterwards, the output-root file names afterwards, and the effects. -/
structure GetResult where
  success : Bool
  imageCount : Int
  tree : List (List Char)
  effects : List Eff
deriving DecidableEq

/-- Translation of `_retrieve_with_get` (lines 349-439) over a tool oracle:
a missing tool fails before any invocation; timeout or exception fails; on
exit code 0 the output is scanned for a completed count, the rename pass runs
over the whole output root, `self.image_count` grows by the parsed count only
when it is positive, and the call returns success; a nonzero exit code fails
without renaming or counting. -/
def retrieveWithGet (count : Int) (tree : List (List Char)) (suid sid : String)
    (out : ToolOutcome) : GetResult :=
  match out with
  | .notFound => ⟨false, count, tree, []⟩
  | .timeout => ⟨false, count, tree, [.toolInvoke suid sid]⟩
  | .runRaises => ⟨false, count, tree, [.toolInvoke suid sid]⟩
  | .ran rc lines written =>
    if rc = 0 then
      let tree0 := tree ++ written
      let completed := completedOf lines
      let renameEffs := (tree0.filter fun f => !endsWithDcm f).map
        fun f => Eff.fsWrite (String.mk (f ++ dcmSuffix))
      let count2 := if 0 < completed then count + completed else count
      ⟨true, count2, repairPass tree0, [.toolInvoke suid sid] ++ renameEffs⟩
    else ⟨false, count, tree ++ written, [.toolInvoke suid sid]⟩

/-! ## The C-MOVE strategy (`_retrieve_with_move`, lines 443-507) -/

/-- The non-success C-MOVE statuses the code watches for (line 495). -/
def moveWarnStatuses : List Nat := [0xA701, 0xA702, 0xA900, 0xC000]

/-- Oracle for one C-MOVE operation.  `responses sts inbound` is the path on
which the association is established and iteration completes: `sts` are the
C-MOVE statuses observed and `inbound` the objects delivered to the store
callback (with each local write's outcome). -/
inductive MoveBehavior
  | startFails
  | assocNotEstablished
  | moveRaises
  | responses (statuses : List Nat) (inbound : List (DicomObject × WriteOutcome))
deriving DecidableEq

/-- Render a destination path for the effect trace. -/
def DestPath.render (p : DestPath) : String :=
  p.patientSeg ++ "/" ++ p.studySeg ++ "/" ++ p.seriesSeg ++ "/" ++ p.fileName

/-- Run the store callback over each inbound object in delivery order,
threading `self.image_count` and collecting write effects. -/
def processInbound (st : StoreState) :
    List (DicomObject × WriteOutcome) → StoreState × List Eff
  | [] => (st, [])
  | p :: rest =>
    let r := handleStore st p.1 p.2
    let tail := processInbound ⟨r.newCount, st.dryRun⟩ rest
    (tail.1, (r.writes.map fun q => Eff.fsWrite q.render) ++ tail.2)

/-- Result of `_retrieve_with_move`: the boolean returned, the store state
afterwards, the effects, and whether `scp.shutdown()` ran. -/
structure MoveResult where
  success : Bool
  state : StoreState
  effects : List Eff
  scpStopped : Bool
deriving DecidableEq

/-- Translation of `_retrieve_with_move` (lines 443-507) over a move oracle:
a failed listener start returns failure before any move; the second `try` has
a `finally: scp.shutdown()`, so the listener stops on its every exit path;
non-success statuses in the response iteration are only logged as warnings
(line 496) and the call still returns `True`; failure is returned only for a
not-established association or an exception. -/
def retrieveWithMove (st : StoreState) (suid sid : String) (b : MoveBehavior) : MoveResult :=
  match b with
  | .startFails => ⟨false, st, [], false⟩
  | .assocNotEstablished => ⟨false, st, [], true⟩
  | .moveRaises => ⟨false, st, [.moveSend suid sid], true⟩
  | .responses _ inbound =>
    let r := processInbound st inbound
    ⟨true, r.1, [.moveSend suid sid] ++ r.2, true⟩

/-! ## The orchestrator (`retrieve_study`, `retrieve_images`) -/

/-- The full oracle for one run: the study-find behaviour, the per-study
series-find behaviour, and the per-series transport behaviours. -/
structure Env where
  findB : FindBehavior (FindResp Study)
  seriesB : String → FindBehavior (FindResp Series)
  getOutcome : String → String → ToolOutcome
  moveB : String → String → MoveBehavior

/-- Run-wide mutable state threaded through the study loop: the shared
`self.image_count` counter and the file names under the output root. -/
structure RunState where
  imageCount : Int
  tree : List (List Char)
deriving DecidableEq

/-- The per-series fold of `retrieve_study` (lines 330-346): invoke the
configured strategy for each series, clearing the success flag on a failed
series but always proceeding to the next one. -/
def seriesFold (useCGet : Bool) (env : Env) (uid : String) :
    List Series → Bool × RunState × List Eff → Bool × RunState × List Eff
  | [], acc => acc
  | ser :: rest, acc =>
    let sid := ser.seriesInstanceUID
    let next :=
      if useCGet then
        let r := retrieveWithGet acc.2.1.imageCount acc.2.1.tree uid sid (env.getOutcome uid sid)
        (acc.1 && r.success, (⟨r.imageCount, r.tree⟩ : RunState), acc.2.2 ++ r.effects)
      else
        let r := retrieveWithMove ⟨acc.2.1.imageCount, false⟩ uid sid (env.moveB uid sid)
        (acc.1 && r.success, (⟨r.state.imageCount, acc.2.1.tree⟩ : RunState), acc.2.2 ++ r.effects)
    seriesFold useCGet env uid rest next

/-- Translation of `retrieve_study` (lines 312-347): in dry-run mode the call
returns `True` immediately, before the series find and before any retrieval;
otherwise it finds the study's NM series (no limit), fails when none are
found, and else retrieves each series with the configured strategy. -/
def retrieveStudy (dryRun useCGet : Bool) (env : Env) (uid : String) (rs : RunState) :
    Bool × RunState × List Eff :=
  if dryRun then (true, rs, [])
  else
    let found := findNmSeriesRun (env.seriesB uid) none
    let effs0 := [Eff.findSeriesCall uid]
    if found.1.isEmpty then (false, rs, effs0)
    else seriesFold useCGet env uid found.1 (true, rs, effs0)

/-- The study loop of `retrieve_images` (lines 545-553): retrieve each study
in order, breaking after a study once `max_images` is truthy and the running
counter has reached it. -/
def studyLoop (dryRun useCGet : Bool) (env : Env) (maxImages : Option Nat) :
    List Study → RunState → List Eff → RunState × List Eff
  | [], rs, effs => (rs, effs)
  | s :: rest, rs, effs =>
    let r := retrieveStudy dryRun useCGet env s.studyInstanceUID rs
    let effs2 := effs ++ r.2.2
    if limitTruthy maxImages && decide ((maxImages.getD 0 : Int) ≤ r.2.1.imageCount) then
      (r.2.1, effs2)
    else studyLoop dryRun useCGet env maxImages rest r.2.1 effs2

/-- `int(getattr(s, 'NumberOfStudyRelatedInstances', 0) or 0)` per study. -/
def declaredCount (s : Study) : Nat := s.numberOfStudyRelatedInstances.getD 0

/-- The estimated total of `retrieve_images` (line 531). -/
def totalDeclared (studies : List Study) : Nat := (studies.map declaredCount).sum

/-- What one run reports: the estimated-total log line when emitted (the
`if total_images > 0` guard on line 532), the final value of
`self.image_count` (the count in the closing log line, dry-run or not), and
the effect trace. -/
structure RunReport where
  estimateLog : Option Nat
  finalCount : Int
  effects : List Eff
deriving DecidableEq

/-- Translation of `retrieve_images` (lines 509-564): run the study find
(which always executes, dry-run included), return early when it yields
nothing, log the declared-count estimate only when it is positive, then run
the study loop from a zero counter. -/
def retrieveImages (dryRun useCGet : Bool) (env : Env)
    (maxStudies maxImages : Option Nat) : RunReport :=
  let found := findNmStudiesRun env.findB maxStudies
  let studies := found.1
  let effs0 := [Eff.findStudiesCall]
  if studies.isEmpty then ⟨none, 0, effs0⟩
  else
    let total := totalDeclared studies
    let estLog := if 0 < total then some total else none
    let effs1 := effs0 ++ (match estLog with | some n => [Eff.logEstimate n] | none => [])
    let r := studyLoop dryRun useCGet env maxImages studies ⟨0, []⟩ effs1
    ⟨estLog, r.1.imageCount, r.2⟩

/-- A pending study-find response wrapping one study record. -/
def stubResp (s : Study) : FindResp Study := ⟨some 0xFF00, some s⟩

/-! ## Concrete fixtures -/

/-- A study record with modality text `NM` and no declared count. -/
def nmStudy (u : String) : Study := ⟨u, some "NM", none⟩

/-- C5 example fixtures. -/
def studCTNM : Study := ⟨"S1", some "CT\\NM", none⟩

/-- A study whose modalities text lacks the NM code. -/
def studCTMR : Study := ⟨"S2", some "CT\\MR", none⟩

/-- A study with the modalities field absent. -/
def studNoMod : Study := ⟨"S3", none, none⟩

/-! ## Claim theorems -/

/-- C5: the modality filter of `find_nm_studies` retains a study exactly when
its modalities-in-study field is present and its textual form contains `NM`
as a substring; `CT\NM` is retained, `CT\MR` is excluded, and an absent field
drops the record. -/
theorem modality_filter_iff :
    (∀ s : Study, retainStudy s = retainStudySpec s)
    ∧ retainStudy studCTNM = true
    ∧ retainStudy studCTMR = false
    ∧ retainStudy studNoMod = false := by
  refine ⟨?_, by decide, by decide, by decide⟩
  intro s
  cases hm : s.modalitiesInStudy with
  | none => simp [retainStudy, retainStudySpec, hm]
  | some m =>
    by_cases he : m = ""
    · subst he
      simp only [retainStudy, retainStudySpec, hm, if_pos rfl]
      decide
    · simp [retainStudy, retainStudySpec, hm, he]

/-- C6: for every discovery-ordered response list and every positive study
limit, `find_nm_studies` returns exactly the first `limit` modality-matching
collected studies in discovery order; with limit 2 and five matching studies
`A..E` the result is `[A, B]`. -/
theorem find_studies_limit :
    (∀ (l : Nat) (rs : List (FindResp Study)), 0 < l →
        (findNmStudiesRun (.ok rs) (some l)).1
          = ((collectStudies rs).filter retainStudy).take l)
    ∧ (findNmStudiesRun
        (.ok ([nmStudy "A", nmStudy "B", nmStudy "C", nmStudy "D", nmStudy "E"].map stubResp))
        (some 2)).1 = [nmStudy "A", nmStudy "B"] := by
  refine ⟨?_, by decide⟩
  intro l rs hl
  simp [findNmStudiesRun, applyStudyFilter_some l hl]

/-- C6 witness: applying the limit theorem at limit 2 on the five-study
example list. -/
theorem find_studies_limit_witness :
    0 < 2
    ∧ (findNmStudiesRun
        (.ok ([nmStudy "A", nmStudy "B", nmStudy "C", nmStudy "D", nmStudy "E"].map stubResp))
        (some 2)).1
      = ((collectStudies
            ([nmStudy "A", nmStudy "B", nmStudy "C", nmStudy "D", nmStudy "E"].map stubResp)).filter
          retainStudy).take 2 :=
  ⟨by decide, find_studies_limit.1 2 _ (by decide)⟩

/-- C7: date-range resolution follows the case split of the source: a truthy
from/to bound yields the inclusive range with `19700101`/`29991231`
substituted for the missing side; else a truthy single date is returned
verbatim; else the trailing 30-day window ending at the call-time date is
formatted.  Includes the spec's concrete examples at day 18915
(2021-10-15). -/
theorem resolve_date_range_cases :
    (∀ (today : Nat) (single : Option String) (f t : String), f ≠ "" → t ≠ "" →
        resolveDateRange today single (some f) (some t) = f ++ "-" ++ t)
    ∧ (∀ (today : Nat) (single : Option String) (f : String), f ≠ "" →
        resolveDateRange today single (some f) none = f ++ "-" ++ "29991231")
    ∧ (∀ (today : Nat) (single : Option String) (t : String), t ≠ "" →
        resolveDateRange today single none (some t) = "19700101" ++ "-" ++ t)
    ∧ (∀ (today : Nat) (s : String), s ≠ "" →
        resolveDateRange today (some s) none none = s)
    ∧ (∀ today : Nat, resolveDateRange today none none none
        = dateToYYYYMMDD (today - 30) ++ "-" ++ dateToYYYYMMDD today)
    ∧ resolveDateRange 18915 none (some "20210101") none = "20210101-29991231"
    ∧ resolveDateRange 18915 none none (some "20211231") = "19700101-20211231"
    ∧ resolveDateRange 18915 (some "20210901") none none = "20210901"
    ∧ resolveDateRange 18915 none none none = "20210915-20211015" := by
  refine ⟨?_, ?_, ?_, ?_, ?_, by decide, by decide, by decide, by decide⟩
  · intro today single f t hf ht
    simp [resolveDateRange, pyTruthyStr, hf, ht]
  · intro today single f hf
    simp [resolveDateRange, pyTruthyStr, hf]
  · intro today single t ht
    simp [resolveDateRange, pyTruthyStr, ht]
  · intro today s hs
    simp [resolveDateRange, pyTruthyStr, hs]
  · intro today
    simp [resolveDateRange, pyTruthyStr]

/-- C7 witness: the open-ended from-bound case applied at `20210101`. -/
theorem resolve_date_range_cases_witness :
    ("20210101" : String) ≠ ""
    ∧ resolveDateRange 18915 none (some "20210101") none = "20210101" ++ "-" ++ "29991231" :=
  ⟨by decide, resolve_date_range_cases.2.1 18915 none "20210101" (by decide)⟩

theorem endsWithDcm_append (f : List Char) : endsWithDcm (f ++ dcmSuffix) = true := by
  rw [endsWithDcm, List.isSuffixOf_iff_suffix]
  exact List.suffix_append f dcmSuffix

theorem repairName_endsWithDcm (f : List Char) : endsWithDcm (repairName f) = true := by
  by_cases h : endsWithDcm f = true
  · simp [repairName, h]
  · simp only [repairName, h, Bool.false_eq_true, if_false]
    exact endsWithDcm_append f

theorem repairName_idem (f : List Char) : repairName (repairName f) = repairName f := by
  have h := repairName_endsWithDcm f
  by_cases hf : endsWithDcm f = true
  · simp [repairName, hf]
  · simp only [repairName, hf, Bool.false_eq_true, if_false] at h ⊢
    simp [h]

/-- C8: the extension-repair pass of `_retrieve_with_get` appends `.dcm` to
every name lacking it (`1.2.840` becomes `1.2.840.dcm`), after one pass every
name carries the suffix, and a second pass leaves the tree unchanged. -/
theorem extension_repair_idempotent :
    (∀ tree : List (List Char), repairPass (repairPass tree) = repairPass tree)
    ∧ (∀ tree : List (List Char), ∀ f ∈ repairPass tree, endsWithDcm f = true)
    ∧ repairPass ["1.2.840".toList] = ["1.2.840.dcm".toList] := by
  refine ⟨?_, ?_, by decide⟩
  · intro tree
    simp only [repairPass, List.map_map]
    exact List.map_congr_left fun f _ => repairName_idem f
  · intro tree f hf
    simp only [repairPass, List.mem_map] at hf
    obtain ⟨g, _, rfl⟩ := hf
    exact repairName_endsWithDcm g

/-- C8 witness: the repair pass on the concrete one-file tree `[1.2.840]` is
idempotent and yields only suffixed names. -/
theorem extension_repair_idempotent_witness :
    repairPass (repairPass ["1.2.840".toList]) = repairPass ["1.2.840".toList]
    ∧ endsWithDcm ("1.2.840.dcm".toList) = true :=
  ⟨extension_repair_idempotent.1 ["1.2.840".toList],
   extension_repair_idempotent.2.1 ["1.2.840".toList] ("1.2.840.dcm".toList)
     (by rw [extension_repair_idempotent.2.2]; exact List.mem_singleton.mpr rfl)⟩

/-- A concrete inbound object reused by the store-callback theorems. -/
def objAB : DicomObject := ⟨some "AB/12*ID", some "ST1", some "SE1", some "IN1"⟩

/-- C9: `handle_store` increments the shared image counter before any write
is attempted: the new count is always the old count plus one; dry-run stores
write nothing and return success; a failed local write returns the failure
status 0xC000 yet keeps the increment, so the counter — and with it the
`max_images` check of the study loop — counts failed stores exactly like
successful ones. -/
theorem store_counter_increment :
    ∀ (st : StoreState) (ds : DicomObject),
      (∀ w : WriteOutcome, (handleStore st ds w).newCount = st.imageCount + 1)
      ∧ (st.dryRun = true → ∀ w : WriteOutcome,
          (handleStore st ds w).writes = [] ∧ (handleStore st ds w).status = 0x0000)
      ∧ (st.dryRun = false → (handleStore st ds .raises).status = 0xC000)
      ∧ (handleStore st ds .raises).newCount = (handleStore st ds .ok).newCount := by
  intro st ds
  refine ⟨?_, ?_, ?_, ?_⟩
  · intro w
    cases w <;> cases hd : st.dryRun <;> simp [handleStore, hd]
  · intro h w
    cases w <;> simp [handleStore, h]
  · intro h
    simp [handleStore, h]
  · cases hd : st.dryRun <;> simp [handleStore, hd]

/-- C9 witness: a failed store at counter 7 keeps the increment, reports the
failure status, and leaves the counter as a successful store would. -/
theorem store_counter_increment_witness :
    (handleStore ⟨7, false⟩ objAB .raises).newCount = 7 + 1
    ∧ (handleStore ⟨7, false⟩ objAB .raises).status = 0xC000
    ∧ (handleStore ⟨7, false⟩ objAB .raises).newCount
        = (handleStore ⟨7, false⟩ objAB .ok).newCount :=
  ⟨(store_counter_increment ⟨7, false⟩ objAB).1 .raises,
   (store_counter_increment ⟨7, false⟩ objAB).2.2.1 rfl,
   (store_counter_increment ⟨7, false⟩ objAB).2.2.2⟩

theorem completedOf_eq_zero (lines : List (List Char))
    (h : ∀ l ∈ lines, hasMarker l = true → parseCompletedLine l = none) :
    completedOf lines = 0 := by
  have : ∀ acc : Int, lines.foldl completedStep acc = acc := by
    induction lines with
    | nil => intro acc; rfl
    | cons l rest ih =>
      intro acc
      have h1 : ∀ x ∈ rest, hasMarker x = true → parseCompletedLine x = none :=
        fun x hx => h x (List.mem_cons_of_mem _ hx)
      have ih2 := ih h1
      by_cases hm : hasMarker l = true
      · have hp := h l (List.mem_cons_self _ _) hm
        simp [List.foldl_cons, completedStep, hm, hp, ih2]
      · simp [List.foldl_cons, completedStep, hm, ih2]
  exact this 0

/-- C10: on a successful `getscu` invocation (exit code 0) the call reports
success and the run counter grows by the parsed completed-suboperations
count exactly when that count is positive; when no marker line of the output
parses, the call still succeeds with the counter unchanged, so such a call
can never push the counter over a `max_images` bound it was below. -/
theorem getscu_counter_parse :
    ∀ (count : Int) (tree : List (List Char)) (suid sid : String)
      (lines written : List (List Char)),
      (retrieveWithGet count tree suid sid (.ran 0 lines written)).success = true
      ∧ (retrieveWithGet count tree suid sid (.ran 0 lines written)).imageCount
          = count + max (completedOf lines) 0
      ∧ ((∀ l ∈ lines, hasMarker l = true → parseCompletedLine l = none) →
          (retrieveWithGet count tree suid sid (.ran 0 lines written)).imageCount = count
          ∧ ∀ m : Int, count < m →
              (retrieveWithGet count tree suid sid (.ran 0 lines written)).imageCount < m) := by
  intro count tree suid sid lines written
  have hred : (retrieveWithGet count tree suid sid (.ran 0 lines written)).imageCount
      = (if 0 < completedOf lines then count + completedOf lines else count) := by
    simp [retrieveWithGet]
  refine ⟨rfl, ?_, ?_⟩
  · rw [hred]
    by_cases h : 0 < completedOf lines
    · rw [if_pos h]
      omega
    · rw [if_neg h]
      omega
  · intro h
    have hz := completedOf_eq_zero lines h
    have : (retrieveWithGet count tree suid sid (.ran 0 lines written)).imageCount = count := by
      rw [hred, hz]
      simp
    exact ⟨this, fun m hm => by rw [this]; exact hm⟩

/-- C10 witness: a successful run whose output has no parsable marker line
keeps the counter at 5, below an image limit of 6. -/
theorem getscu_counter_parse_witness :
    (retrieveWithGet 5 [] "ST" "SE" (.ran 0 ["hello".toList] [])).success = true
    ∧ (retrieveWithGet 5 [] "ST" "SE" (.ran 0 ["hello".toList] [])).imageCount = 5
    ∧ (retrieveWithGet 5 [] "ST" "SE" (.ran 0 ["hello".toList] [])).imageCount < 6 := by
  have h := getscu_counter_parse 5 [] "ST" "SE" ["hello".toList] []
  have hnp : ∀ l ∈ ["hello".toList], hasMarker l = true → parseCompletedLine l = none := by
    decide
  exact ⟨h.1, (h.2.2 hnp).1, (h.2.2 hnp).2 6 (by decide)⟩

/-- C2 (counterexample): an exception raised while sending the study query
leaves an established association unreleased: the `except` handler of
`find_nm_studies` logs and returns `[]` without calling `release()`, so the
claim that every exit path releases the association is false. -/
theorem find_release_counterexample :
    (findNmStudiesRun (.sendRaises : FindBehavior (FindResp Study)) none).2.established = true
    ∧ (findNmStudiesRun (.sendRaises : FindBehavior (FindResp Study)) none).2.released = false :=
  ⟨rfl, rfl⟩

/-- C2 (amended): the association opened by the study find or the series
find is released exactly on the exception-free established path; when an
exception is raised while sending the query or iterating the responses, the
`except` handler returns without releasing it, and a not-established
association is likewise never released. -/
theorem find_release_iff :
    ∀ (bs : FindBehavior (FindResp Study)) (bser : FindBehavior (FindResp Series))
      (l1 l2 : Option Nat),
      ((findNmStudiesRun bs l1).2.released = true ↔ bs.isOk = true)
      ∧ ((findNmSeriesRun bser l2).2.released = true ↔ bser.isOk = true) := by
  intro bs bser l1 l2
  constructor
  · cases bs <;> simp [findNmStudiesRun, FindBehavior.isOk]
  · cases bser <;> simp [findNmSeriesRun, FindBehavior.isOk]

theorem processInbound_effects_write (st : StoreState)
    (inbound : List (DicomObject × WriteOutcome)) :
    ∀ e ∈ (processInbound st inbound).2, isFsWrite e = true := by
  induction inbound generalizing st with
  | nil => intro e he; simp [processInbound] at he
  | cons p rest ih =>
    intro e he
    simp only [processInbound, List.mem_append, List.mem_map] at he
    rcases he with ⟨q, _, rfl⟩ | he
    · rfl
    · exact ih _ e he

theorem processInbound_transport_zero (st : StoreState)
    (inbound : List (DicomObject × WriteOutcome)) :
    (processInbound st inbound).2.countP isTransport = 0 := by
  rw [List.countP_eq_zero]
  intro e he
  have h := processInbound_effects_write st inbound e he
  cases e <;> simp_all [isFsWrite, isTransport]

theorem seriesFold_move (env : Env) (uid : String)
    (h : ∀ sid, ∃ sts inb, env.moveB uid sid = .responses sts inb) :
    ∀ (l : List Series) (succ : Bool) (st : RunState) (effs : List Eff),
      (seriesFold false env uid l (succ, st, effs)).1 = succ
      ∧ (seriesFold false env uid l (succ, st, effs)).2.2.countP isTransport
          = effs.countP isTransport + l.length := by
  intro l
  induction l with
  | nil => intro succ st effs; simp [seriesFold]
  | cons ser rest ih =>
    intro succ st effs
    obtain ⟨sts, inb, heq⟩ := h ser.seriesInstanceUID
    have hstep : seriesFold false env uid (ser :: rest) (succ, st, effs)
        = seriesFold false env uid rest
            (succ && true,
             (⟨(processInbound ⟨st.imageCount, false⟩ inb).1.imageCount, st.tree⟩ : RunState),
             effs ++ ([Eff.moveSend uid ser.seriesInstanceUID]
               ++ (processInbound ⟨st.imageCount, false⟩ inb).2)) := by
      simp [seriesFold, heq, retrieveWithMove]
    rw [hstep]
    have hrec := ih (succ && true)
      (⟨(processInbound ⟨st.imageCount, false⟩ inb).1.imageCount, st.tree⟩ : RunState)
      (effs ++ ([Eff.moveSend uid ser.seriesInstanceUID]
        ++ (processInbound ⟨st.imageCount, false⟩ inb).2))
    refine ⟨by rw [hrec.1]; simp, ?_⟩
    rw [hrec.2]
    simp [List.countP_append, processInbound_transport_zero, isTransport, List.countP_cons]
    omega

/-- C3 (counterexample): 0xC000 is one of the non-success C-MOVE statuses the
code checks for, yet when the response iteration yields it
`_retrieve_with_move` still returns `True`, so that series' unit of work is
not marked failed as the claim requires. -/
theorem move_status_counterexample :
    (0xC000 : Nat) ∈ moveWarnStatuses
    ∧ (retrieveWithMove ⟨0, false⟩ "ST" "SE" (.responses [0xC000] [])).success = true :=
  ⟨by decide, rfl⟩

/-- C3 (amended): non-success C-MOVE statuses are only logged as warnings:
on the response-iteration path `_retrieve_with_move` reports success
whatever statuses the remote returned; a series is marked failed only when
the listener fails to start, the association is not established, or an
exception is raised; and the per-series loop of `retrieve_study` proceeds
through every found series, dispatching one move per series. -/
theorem move_status_logged_only :
    (∀ (st : StoreState) (suid sid : String) (sts : List Nat)
        (inbound : List (DicomObject × WriteOutcome)),
        (retrieveWithMove st suid sid (.responses sts inbound)).success = true)
    ∧ (∀ (env : Env) (uid : String) (rs : RunState),
        (∀ sid, ∃ sts inb, env.moveB uid sid = .responses sts inb) →
        (retrieveStudy false false env uid rs).2.2.countP isTransport
            = (findNmSeriesRun (env.seriesB uid) none).1.length
        ∧ ((findNmSeriesRun (env.seriesB uid) none).1 ≠ [] →
            (retrieveStudy false false env uid rs).1 = true)) := by
  constructor
  · intro st suid sid sts inbound
    rfl
  · intro env uid rs h
    by_cases he : (findNmSeriesRun (env.seriesB uid) none).1.isEmpty = true
    · have hnil := List.isEmpty_iff.mp he
      constructor
      · simp [retrieveStudy, he, hnil, isTransport]
      · intro hne
        exact absurd hnil hne
    · have hfold := seriesFold_move env uid h (findNmSeriesRun (env.seriesB uid) none).1
        true rs [Eff.findSeriesCall uid]
      have hred : retrieveStudy false false env uid rs
          = seriesFold false env uid (findNmSeriesRun (env.seriesB uid) none).1
              (true, rs, [Eff.findSeriesCall uid]) := by
        simp [retrieveStudy, he]
      rw [hred]
      refine ⟨?_, fun _ => hfold.1⟩
      rw [hfold.2]
      simp [isTransport]

/-- A one-series environment whose move always returns the error status
0xC000, used to witness the amended C3 statement. -/
def envMoveErr : Env :=
  ⟨.ok [], fun _ => .ok [⟨some 0xFF00, some ⟨"SE1"⟩⟩], fun _ _ => .notFound,
   fun _ _ => .responses [0xC000] []⟩

/-- C3 witness: with one found series whose move yields status 0xC000, the
study retrieval dispatches exactly one move and still reports success. -/
theorem move_status_logged_only_witness :
    (retrieveWithMove ⟨0, false⟩ "S" "E" (.responses [0xC000] [])).success = true
    ∧ (retrieveStudy false false envMoveErr "ST" ⟨0, []⟩).2.2.countP isTransport
        = (findNmSeriesRun (envMoveErr.seriesB "ST") none).1.length
    ∧ (retrieveStudy false false envMoveErr "ST" ⟨0, []⟩).1 = true := by
  have h2 := move_status_logged_only.2 envMoveErr "ST" ⟨0, []⟩
    (fun _ => ⟨[0xC000], [], rfl⟩)
  exact ⟨move_status_logged_only.1 ⟨0, false⟩ "S" "E" [0xC000] [],
    h2.1, h2.2 (by decide)⟩

/-- An inbound object whose study and series identifiers contain characters
the sanitizer would strip. -/
def objC4 : DicomObject := ⟨some "AB/12*ID", some "1.2/3", some "4.5", some "6.7"⟩

/-- C4 (counterexample): an inbound object whose study UID contains `/` and
`.` keeps them verbatim in the study path segment, so the claim that every
path segment is sanitized is false: only the patient segment is. -/
theorem sanitize_only_patient_counterexample :
    (destPath objC4).studySeg = "1.2/3"
    ∧ sanitize "1.2/3" = "123"
    ∧ (destPath objC4).studySeg ≠ sanitize "1.2/3" := by
  decide

/-- C4 (amended): in the store callback only the patient-ID path segment is
sanitized (keeping alphanumerics, `-` and `_`, so `AB/12*ID` becomes
`AB12ID`); the study, series and instance UID segments are used verbatim,
the file name being the instance UID with `.dcm` appended. -/
theorem sanitize_only_patient :
    (∀ ds : DicomObject,
        (destPath ds).patientSeg = sanitize (ds.patientID.getD "UNKNOWN")
        ∧ (destPath ds).studySeg = ds.studyInstanceUID.getD "UNKNOWN"
        ∧ (destPath ds).seriesSeg = ds.seriesInstanceUID.getD "UNKNOWN"
        ∧ (destPath ds).fileName = (ds.sopInstanceUID.getD "UNKNOWN") ++ ".dcm")
    ∧ (∀ s : String, (sanitize s).data.all keepChar = true)
    ∧ (∀ s : String, sanitize (sanitize s) = sanitize s)
    ∧ sanitize "AB/12*ID" = "AB12ID" := by
  refine ⟨fun ds => ⟨rfl, rfl, rfl, rfl⟩, ?_, ?_, by decide⟩
  · intro s
    simp [sanitize, List.all_filter]
  · intro s
    simp [sanitize, List.filter_filter]

theorem collectStudies_stub (studies : List Study) :
    collectStudies (studies.map stubResp) = studies := by
  induction studies with
  | nil => rfl
  | cons s rest ih => simp [collectStudies, stubResp, pendingResp, ih]

theorem applyStudyFilter_id (l : List Study) (h : ∀ s ∈ l, retainStudy s = true) :
    applyStudyFilter none l = l := by
  simp [applyStudyFilter, limitTruthy, filterNmAux_none, List.filter_eq_self.mpr h]

theorem studyLoop_dry (useCGet : Bool) (env : Env) (maxI : Option Nat) :
    ∀ (l : List Study) (tree : List (List Char)) (effs : List Eff),
      studyLoop true useCGet env maxI l ⟨0, tree⟩ effs = (⟨0, tree⟩, effs) := by
  intro l
  induction l with
  | nil => intro tree effs; rfl
  | cons s rest ih =>
    intro tree effs
    have hret : retrieveStudy true useCGet env s.studyInstanceUID ⟨0, tree⟩
        = (true, ⟨0, tree⟩, []) := rfl
    have hcond : (limitTruthy maxI && decide ((maxI.getD 0 : Int) ≤ (0 : Int))) = false := by
      cases maxI with
      | none => rfl
      | some m =>
        by_cases hm : m = 0
        · simp [limitTruthy, hm]
        · have hgt : ¬((m : Int) ≤ 0) := by
            have : 0 < m := Nat.pos_of_ne_zero hm
            omega
          simp [limitTruthy, hm, hgt]
    simp only [studyLoop, hret, List.append_nil, hcond, Bool.false_eq_true, if_false]
    exact ih tree effs

theorem retrieveImages_dry (useCGet : Bool) (env : Env) (maxI : Option Nat)
    (studies : List Study) (hf : (findNmStudiesRun env.findB none).1 = studies) :
    retrieveImages true useCGet env none maxI
      = if studies.isEmpty then ⟨none, 0, [Eff.findStudiesCall]⟩
        else
          ⟨if 0 < totalDeclared studies then some (totalDeclared studies) else none, 0,
           [Eff.findStudiesCall]
             ++ (if 0 < totalDeclared studies then [Eff.logEstimate (totalDeclared studies)]
                 else [])⟩ := by
  simp only [retrieveImages, hf]
  by_cases he : studies.isEmpty
  · simp [he]
  · simp only [he, Bool.false_eq_true, if_false]
    rw [studyLoop_dry]
    by_cases ht : 0 < totalDeclared studies
    · simp [ht]
    · simp [ht]

/-- C1 (amended): in dry-run mode, for every found-study list of
modality-matching records each carrying a declared instance count, the run
logs an estimated image count equal to the sum of the declared counts
whenever that sum is positive (a zero sum produces no estimate line),
performs zero filesystem writes, invokes the retrieval transport zero times,
still executes the study find, and the final reported counter stays 0. -/
theorem dry_run_estimate :
    ∀ (studies : List Study) (useCGet : Bool) (maxI : Option Nat)
      (sb : String → FindBehavior (FindResp Series))
      (go : String → String → ToolOutcome) (mb : String → String → MoveBehavior),
      (∀ s ∈ studies, retainStudy s = true) →
      (∀ s ∈ studies, s.numberOfStudyRelatedInstances.isSome = true) →
      (retrieveImages true useCGet ⟨.ok (studies.map stubResp), sb, go, mb⟩ none maxI).estimateLog
          = (if 0 < totalDeclared studies then some (totalDeclared studies) else none)
      ∧ (retrieveImages true useCGet ⟨.ok (studies.map stubResp), sb, go, mb⟩ none
          maxI).effects.countP isFsWrite = 0
      ∧ (retrieveImages true useCGet ⟨.ok (studies.map stubResp), sb, go, mb⟩ none
          maxI).effects.countP isTransport = 0
      ∧ Eff.findStudiesCall
          ∈ (retrieveImages true useCGet ⟨.ok (studies.map stubResp), sb, go, mb⟩ none
              maxI).effects
      ∧ (retrieveImages true useCGet ⟨.ok (studies.map stubResp), sb, go, mb⟩ none
          maxI).finalCount = 0 := by
  intro studies useCGet maxI sb go mb hret _hdecl
  have hfound :
      (findNmStudiesRun (Env.mk (.ok (studies.map stubResp)) sb go mb).findB none).1
        = studies := by
    simp [findNmStudiesRun, collectStudies_stub, applyStudyFilter_id studies hret]
  have hchar := retrieveImages_dry useCGet ⟨.ok (studies.map stubResp), sb, go, mb⟩ maxI
    studies hfound
  rw [hchar]
  by_cases he : studies.isEmpty
  · have hnil := List.isEmpty_iff.mp he
    subst hnil
    simp [totalDeclared, declaredCount, isFsWrite, isTransport]
  · simp only [he, Bool.false_eq_true, if_false]
    by_cases ht : 0 < totalDeclared studies
    · simp [ht, isFsWrite, isTransport, List.countP_append, List.countP_cons]
    · simp [ht, isFsWrite, isTransport, List.countP_append, List.countP_cons]

/-- A found study that declares an instance count of zero. -/
def studZero : Study := ⟨"SZ", some "NM", some 0⟩

/-- A dry-run environment whose study find yields exactly `studZero`. -/
def envDryZero : Env :=
  ⟨.ok [stubResp studZero], fun _ => .ok [], fun _ _ => .notFound, fun _ _ => .startFails⟩

/-- C1 (counterexample): with one found study carrying a declared instance
count of 0, the dry run emits no estimate line at all (the
`if total_images > 0` guard of line 532), while the claim requires the
estimated count to be reported as the sum of the declared counts, here 0. -/
theorem dry_run_estimate_counterexample :
    studZero.numberOfStudyRelatedInstances.isSome = true
    ∧ retainStudy studZero = true
    ∧ totalDeclared [studZero] = 0
    ∧ (retrieveImages true true envDryZero none none).estimateLog = none
    ∧ (retrieveImages true true envDryZero none none).estimateLog
        ≠ some (totalDeclared [studZero]) := by
  decide

/-- Three found studies, each declaring ten instances. -/
def studTen (u : String) : Study := ⟨u, some "NM", some 10⟩

/-- A dry-run environment whose study find yields the three ten-instance
studies. -/
def envDryTen : Env :=
  ⟨.ok ([studTen "A", studTen "B", studTen "C"].map stubResp), fun _ => .ok [],
   fun _ _ => .notFound, fun _ _ => .startFails⟩

/-- C1 witness: three dry-run studies of ten declared instances each give an
estimate line of 30, no writes, no transport calls, an executed study find,
and a final counter of 0. -/
theorem dry_run_estimate_witness :
    (retrieveImages true true envDryTen none none).estimateLog = some 30
    ∧ (retrieveImages true true envDryTen none none).effects.countP isFsWrite = 0
    ∧ (retrieveImages true true envDryTen none none).effects.countP isTransport = 0
    ∧ Eff.findStudiesCall ∈ (retrieveImages true true envDryTen none none).effects
    ∧ (retrieveImages true true envDryTen none none).finalCount = 0 := by
  have h := dry_run_estimate [studTen "A", studTen "B", studTen "C"] true none
    (fun _ => .ok []) (fun _ _ => .notFound) (fun _ _ => .startFails)
    (by decide) (by decide)
  have h1 : (if 0 < totalDeclared [studTen "A", studTen "B", studTen "C"]
      then some (totalDeclared [studTen "A", studTen "B", studTen "C"]) else none)
      = some 30 := by decide
  exact ⟨h.1.trans h1, h.2.1, h.2.2.1, h.2.2.2.1, h.2.2.2.2⟩

end Risca
